import Mathlib

/-!
# checkmail: a shallow embedding of `checkmail.go`

Go strings are byte sequences, Go `error` values are a small inductive type,
the network (DNS resolver, TCP dial, SMTP peer) is an explicit `World` of
answers, and every library call made by an orchestrator is recorded in a trace.
A Go run-time panic is an explicit outcome.
-/

namespace Checkmail

/-! ## Strings -/

/-- A Go `string`: an immutable sequence of bytes. -/
abbrev GoString := List UInt8

/-- Go `utf8.AppendRune`: the UTF-8 bytes of a rune; a surrogate or a value above
U+10FFFF is written as U+FFFD.  Shifts and masks are written as `/` and `%`. -/
def EncodeRune (r : Nat) : GoString :=
  if r < 0x80 then [UInt8.ofNat r]
  else if r < 0x800 then [UInt8.ofNat (0xC0 + r / 64), UInt8.ofNat (0x80 + r % 64)]
  else if 0x10FFFF < r ∨ (0xD800 ≤ r ∧ r ≤ 0xDFFF) then [0xEF, 0xBF, 0xBD]
  else if r < 0x10000 then
    [UInt8.ofNat (0xE0 + r / 4096), UInt8.ofNat (0x80 + r / 64 % 64), UInt8.ofNat (0x80 + r % 64)]
  else
    [UInt8.ofNat (0xF0 + r / 262144), UInt8.ofNat (0x80 + r / 4096 % 64),
      UInt8.ofNat (0x80 + r / 64 % 64), UInt8.ofNat (0x80 + r % 64)]

/-- The Go string denoted by a string literal of the source (UTF-8 encoded). -/
def str (s : String) : GoString :=
  s.data.flatMap (fun c => EncodeRune c.toNat)

/-- The byte `'@'`. -/
def atSign : UInt8 := 0x40

/-- Loop of `strings.LastIndexByte`: `for i := n - 1; i >= 0; i--`, returning the
first index met whose byte is `c`, and `-1` when the loop runs out. -/
def lastIndexByteLoop (s : GoString) (c : UInt8) : Nat → Int
  | 0 => -1
  | i + 1 => if s[i]? = some c then (i : Int) else lastIndexByteLoop s c i

/-- Go `strings.LastIndexByte(s, c)`. -/
def LastIndexByte (s : GoString) (c : UInt8) : Int :=
  lastIndexByteLoop s c s.length

/-- Go slice expression `s[lo:hi]` on a string: panics (`none`) unless
`0 ≤ lo ≤ hi ≤ len(s)`. -/
def slice (s : GoString) (lo hi : Int) : Option GoString :=
  if 0 ≤ lo ∧ lo ≤ hi ∧ hi ≤ (s.length : Int) then
    some ((s.drop lo.toNat).take (hi - lo).toNat)
  else none

/-- Source `split` (checkmail.go:143-148).  `none` is a run-time panic. -/
def split (email : GoString) : Option (GoString × GoString) :=
  let i := LastIndexByte email atSign
  match slice email 0 i with
  | none => none
  | some account =>
    match slice email (i + 1) email.length with
    | none => none
    | some host => some (account, host)

/-! ## Errors -/

/-- Go `error` interface values seen by the package: the values made by
`errors.New` in this package, errors produced by `net` and `net/smtp` (only their
message text matters here), and an `SmtpError{Err}` held in the interface. -/
inductive GoError where
  | errorString (s : GoString)
  | library (msg : GoString)
  | smtpError (Err : GoError)
  deriving DecidableEq, Repr

/-- Method `Error()` of an `error`; for an `SmtpError` it is checkmail.go:33-35. -/
def GoError.Error : GoError → GoString
  | .errorString s => s
  | .library msg => msg
  | .smtpError e => e.Error

/-- Source `type SmtpError struct { Err error }` (checkmail.go:29-31). -/
structure SmtpError where
  Err : GoError
  deriving DecidableEq, Repr

/-- Source `SmtpError.Error` (checkmail.go:33-35). -/
def SmtpError.Error (e : SmtpError) : GoString := e.Err.Error

/-- Source `SmtpError.Code` (checkmail.go:37-40): `e.Err.Error()[0:3]`; `none` is
the slice-bounds panic. -/
def SmtpError.Code (e : SmtpError) : Option GoString := slice e.Err.Error 0 3

/-- Source `NewSmtpError` (checkmail.go:42-46). -/
def NewSmtpError (err : GoError) : SmtpError := { Err := err }

/-- An `SmtpError` returned as an `error`. -/
def SmtpError.toError (e : SmtpError) : GoError := .smtpError e.Err

/-- Source `ErrBadFormat`. -/
def ErrBadFormat : GoError := .errorString (str "invalid format")

/-- Source `ErrUnresolvableHost`. -/
def ErrUnresolvableHost : GoError := .errorString (str "unresolvable host")

/-- Source `forceDisconnectAfter = time.Second * 5`, in nanoseconds. -/
def forceDisconnectAfter : Nat := 1000000000 * 5

/-! ## The network and the orchestrators -/

/-- Go `net.MX`. -/
structure MX where
  Host : GoString
  Pref : Nat
  deriving DecidableEq, Repr

/-- The three `smtp.Client` methods the package calls on a connection. -/
inductive Command where
  | Hello (localName : GoString)
  | Mail (sender : GoString)
  | Rcpt (recipient : GoString)
  deriving DecidableEq, Repr

/-- Everything outside the package, as answers to its library calls.
`LookupMX` is `net.LookupMX` (Go returns a record slice and an error, both may
be set); `Dial` is `net.DialTimeout("tcp", addr, timeout)`; `Greeting` is the
read of the 220 greeting inside `smtp.NewClient` on the connection to `addr`;
`Reply` is the result of a client method given the methods called before it on
the same connection.  `none` is a nil error. -/
structure World where
  LookupMX : GoString → List MX × Option GoError
  Dial : GoString → Nat → Option GoError
  Greeting : GoString → Option GoError
  Reply : List Command → Command → Option GoError

/-- Library calls made during a run, in program order. -/
inductive Event where
  | lookupMX (name : GoString)
  | dial (addr : GoString) (timeout : Nat) (connected : Bool)
  | afterFunc (timeout : Nat)
  | newClient
  | stop
  | command (c : Command)
  | close
  deriving DecidableEq, Repr

/-- How a call of an exported function ends: it returns an `error` (`none` is
nil) or it panics. -/
inductive Outcome where
  | returned (err : Option GoError)
  | panicked
  deriving DecidableEq, Repr

/-- Go `fmt.Sprintf("%s:%d", host, port)`. -/
def Sprintf_s_d (host : GoString) (port : Nat) : GoString :=
  host ++ str ":" ++ str (Nat.repr port)

/-- Source `DialTimeout` (checkmail.go:129-140).  After a successful TCP dial the
watchdog `time.AfterFunc(timeout, conn.Close)` is armed, `smtp.NewClient` reads
the greeting (closing the connection itself when that fails), and the deferred
`t.Stop()` runs as the function returns.  The host name computed by
`net.SplitHostPort` is only stored in the client and is not modelled.  The
result is the returned error (`none`: a client was returned) and the events. -/
def DialTimeout (w : World) (addr : GoString) (timeout : Nat) : Option GoError × List Event :=
  match w.Dial addr timeout with
  | some err => (some err, [.dial addr timeout false])
  | none =>
    match w.Greeting addr with
    | some err =>
      (some err, [.dial addr timeout true, .afterFunc timeout, .newClient, .close, .stop])
    | none => (none, [.dial addr timeout true, .afterFunc timeout, .newClient, .stop])

/-- Source `ValidateMX` (checkmail.go:72-79). -/
def ValidateMX (w : World) (email : GoString) : Outcome × List Event :=
  match split email with
  | none => (.panicked, [])
  | some (_, host) =>
    match (w.LookupMX host).2 with
    | some _ => (.returned (some ErrUnresolvableHost), [.lookupMX host])
    | none => (.returned none, [.lookupMX host])

/-- Source `ValidateHost` (checkmail.go:82-94).  `mx[0]` on an empty slice is an
index-out-of-range panic. -/
def ValidateHost (w : World) (email : GoString) : Outcome × List Event :=
  match split email with
  | none => (.panicked, [])
  | some (_, host) =>
    match w.LookupMX host with
    | (_, some _) => (.returned (some ErrUnresolvableHost), [.lookupMX host])
    | ([], none) => (.panicked, [.lookupMX host])
    | (mx0 :: _, none) =>
      match DialTimeout w (Sprintf_s_d mx0.Host 25) forceDisconnectAfter with
      | (some err, tr) => (.returned (some (NewSmtpError err).toError), .lookupMX host :: tr)
      | (none, tr) => (.returned none, .lookupMX host :: tr ++ [.close])

/-- Lines 112-124 of `ValidateHostAndUser`: the three stages run on the dialed
client, each only when the one before returned nil. -/
def handshake (w : World) (serverHostName serverMailAddress email : GoString) :
    Option GoError × List Event :=
  match w.Reply [] (.Hello serverHostName) with
  | some err => (some (NewSmtpError err).toError, [.command (.Hello serverHostName)])
  | none =>
    match w.Reply [.Hello serverHostName] (.Mail serverMailAddress) with
    | some err =>
      (some (NewSmtpError err).toError,
        [.command (.Hello serverHostName), .command (.Mail serverMailAddress)])
    | none =>
      match w.Reply [.Hello serverHostName, .Mail serverMailAddress] (.Rcpt email) with
      | some err =>
        (some (NewSmtpError err).toError,
          [.command (.Hello serverHostName), .command (.Mail serverMailAddress),
            .command (.Rcpt email)])
      | none =>
        (none,
          [.command (.Hello serverHostName), .command (.Mail serverMailAddress),
            .command (.Rcpt email)])

/-- Source `ValidateHostAndUser` (checkmail.go:100-125).  The deferred
`client.Close()` runs after the handshake, whatever it returned. -/
def ValidateHostAndUser (w : World) (serverHostName serverMailAddress email : GoString) :
    Outcome × List Event :=
  match split email with
  | none => (.panicked, [])
  | some (_, host) =>
    match w.LookupMX host with
    | (_, some _) => (.returned (some ErrUnresolvableHost), [.lookupMX host])
    | ([], none) => (.panicked, [.lookupMX host])
    | (mx0 :: _, none) =>
      match DialTimeout w (Sprintf_s_d mx0.Host 25) forceDisconnectAfter with
      | (some err, tr) => (.returned (some (NewSmtpError err).toError), .lookupMX host :: tr)
      | (none, tr) =>
        match handshake w serverHostName serverMailAddress email with
        | (err, cmds) => (.returned err, .lookupMX host :: tr ++ cmds ++ [.close])

/-! ## Reading a trace -/

/-- The SMTP commands issued in a trace, in order. -/
def commands : List Event → List Command
  | [] => []
  | .command c :: tr => c :: commands tr
  | _ :: tr => commands tr

/-- The dial attempts of a trace: address and timeout, in order. -/
def dials : List Event → List (GoString × Nat)
  | [] => []
  | .dial addr timeout _ :: tr => (addr, timeout) :: dials tr
  | _ :: tr => dials tr

/-- Whether a connection is open after the events, starting from `st`: a
successful dial opens one, `close` closes it. -/
def connOpen (st : Bool) : List Event → Bool
  | [] => st
  | .dial _ _ true :: tr => connOpen true tr
  | .close :: tr => connOpen false tr
  | _ :: tr => connOpen st tr

/-- Each event paired with the state of the watchdog timer when the event
happens (`true`: armed), starting from `st`: `afterFunc` arms it, `stop`
disarms it. -/
def watchdogLog (st : Bool) : List Event → List (Event × Bool)
  | [] => []
  | .afterFunc t :: tr => (.afterFunc t, st) :: watchdogLog true tr
  | .stop :: tr => (.stop, st) :: watchdogLog false tr
  | ev :: tr => (ev, st) :: watchdogLog st tr

/-- An entry of a watchdog log at which the watchdog covers the handshake: a
command is issued while the watchdog is armed. -/
def armedAtCommand : Event × Bool → Bool
  | (.command _, armed) => armed
  | _ => true

/-- An entry of a watchdog log at which the watchdog covers the dial only: it is
armed with `forceDisconnectAfter`, is armed while `smtp.NewClient` runs, and is
not armed when a command is issued. -/
def armedInDialOnly : Event × Bool → Bool
  | (.command _, armed) => !armed
  | (.newClient, armed) => armed
  | (.afterFunc timeout, _) => timeout == forceDisconnectAfter
  | _ => true

/-- The events that follow the first `close` of a trace. -/
def afterClose : List Event → List Event
  | [] => []
  | .close :: tr => tr
  | _ :: tr => afterClose tr

/-- A world in which the resolver answers every name with one record and every
dial, greeting and command succeeds. -/
def friendlyWorld : World where
  LookupMX := fun _ => ([{ Host := str "mx.example.com", Pref := 10 }], none)
  Dial := fun _ _ => none
  Greeting := fun _ => none
  Reply := fun _ _ => none

/-- What Go's `net.LookupMX` guarantees to its caller: a nil error comes with at
least one record.  A reply without MX records is reported as an error (no such
host), with an empty record slice. -/
def ResolverContract (w : World) : Prop :=
  ∀ name, (w.LookupMX name).2 = none → (w.LookupMX name).1 ≠ []

/-- A world in which no domain has MX records: the resolver reports "no such
host" with an empty record slice. -/
def noRecordsWorld : World where
  LookupMX := fun _ => ([], some (.library (str "lookup example.com: no such host")))
  Dial := fun _ _ => none
  Greeting := fun _ => none
  Reply := fun _ _ => none

/-- A world like `friendlyWorld` whose server rejects every `RCPT TO`. -/
def rejectRcptWorld : World where
  LookupMX := fun _ => ([{ Host := str "mx.example.com", Pref := 10 }], none)
  Dial := fun _ _ => none
  Greeting := fun _ => none
  Reply := fun _ c =>
    match c with
    | .Rcpt _ => some (.library (str "550 no such user"))
    | _ => none

/-- A world with two MX records in which every dial is refused. -/
def refusingWorld : World where
  LookupMX := fun _ =>
    ([{ Host := str "mx1.example.com", Pref := 10 }, { Host := str "mx2.example.com", Pref := 20 }],
      none)
  Dial := fun _ _ => some (.library (str "dial tcp: connection refused"))
  Greeting := fun _ => none
  Reply := fun _ _ => none

/-! ## UTF-8 decoding and case mapping (Go `unicode/utf8`, `unicode`, `strings`) -/

/-- Go `utf8.RuneError`. -/
def RuneError : Nat := 0xFFFD

/-- A Unicode scalar value: at most U+10FFFF and not a surrogate. -/
def ValidRune (r : Nat) : Prop := r ≤ 0x10FFFF ∧ ¬ (0xD800 ≤ r ∧ r ≤ 0xDFFF)

instance (r : Nat) : Decidable (ValidRune r) := by
  unfold ValidRune
  infer_instance

/-- Whether every byte of the string is below `utf8.RuneSelf`. -/
def isASCII (s : GoString) : Bool := s.all (fun c => decide (c.toNat < 0x80))

/-- Whether `lo ≤ b ≤ hi`. -/
def inRange (lo hi b : Nat) : Bool := decide (lo ≤ b) && decide (b ≤ hi)

/-- Go `utf8.DecodeRuneInString`: the first rune of `s` and its width in bytes;
an invalid or truncated encoding gives `(RuneError, 1)`, the empty string
`(RuneError, 0)`.  Shifts and masks are written as `*` and `%`. -/
def DecodeRune (s : GoString) : Nat × Nat :=
  match s with
  | [] => (RuneError, 0)
  | c0 :: t =>
    let b0 := c0.toNat
    if b0 < 0x80 then (b0, 1)
    else if b0 < 0xC2 then (RuneError, 1)
    else if b0 < 0xE0 then
      match t with
      | c1 :: _ =>
        if inRange 0x80 0xBF c1.toNat then (b0 % 32 * 64 + c1.toNat % 64, 2) else (RuneError, 1)
      | _ => (RuneError, 1)
    else if b0 < 0xF0 then
      match t with
      | c1 :: c2 :: _ =>
        if inRange (if b0 = 0xE0 then 0xA0 else 0x80) (if b0 = 0xED then 0x9F else 0xBF) c1.toNat
            && inRange 0x80 0xBF c2.toNat then
          (b0 % 16 * 4096 + c1.toNat % 64 * 64 + c2.toNat % 64, 3)
        else (RuneError, 1)
      | _ => (RuneError, 1)
    else if b0 < 0xF5 then
      match t with
      | c1 :: c2 :: c3 :: _ =>
        if inRange (if b0 = 0xF0 then 0x90 else 0x80) (if b0 = 0xF4 then 0x8F else 0xBF) c1.toNat
            && inRange 0x80 0xBF c2.toNat && inRange 0x80 0xBF c3.toNat then
          (b0 % 8 * 262144 + c1.toNat % 64 * 4096 + c2.toNat % 64 * 64 + c3.toNat % 64, 4)
        else (RuneError, 1)
      | _ => (RuneError, 1)
    else (RuneError, 1)

/-- The runes of a string as `for _, r := range s` yields them.  `skip` counts the
bytes of the current rune still to be passed over. -/
def runesFrom : Nat → GoString → List Nat
  | _, [] => []
  | 0, c :: t => (DecodeRune (c :: t)).1 :: runesFrom ((DecodeRune (c :: t)).2 - 1) t
  | skip + 1, _ :: t => runesFrom skip t

/-- The runes of a string. -/
def runes (s : GoString) : List Nat := runesFrom 0 s

/-- Go `unicode.CaseRange`: `Delta` holds the offsets to upper, lower and title
case. -/
structure CaseRange where
  Lo : Nat
  Hi : Nat
  Delta : Int × Int × Int

/-- Go `unicode.MaxRune`. -/
def MaxRune : Nat := 0x10FFFF

/-- Go `unicode.UpperLower`: the delta marking an alternating Upper/lower range. -/
def UpperLower : Int := 0x10FFFF + 1

/-- Go `unicode.to(_case, r, caseRange)` (`_case`: 0 upper, 1 lower, 2 title).  The
ranges of the table are disjoint, so the binary search of the library is the
search for the range that holds `r`. -/
def unicode.to (_case : Nat) (r : Nat) (caseRange : List CaseRange) : Nat :=
  match caseRange.find? (fun cr => decide (cr.Lo ≤ r) && decide (r ≤ cr.Hi)) with
  | none => r
  | some cr =>
    let delta :=
      if _case = 0 then cr.Delta.1 else if _case = 1 then cr.Delta.2.1 else cr.Delta.2.2
    if delta > (MaxRune : Int) then cr.Lo + ((r - cr.Lo) / 2 * 2 + _case % 2)
    else ((r : Int) + delta).toNat

/-- Go `unicode.ToLower`, over the case table `tbl` (`unicode.CaseRanges`). -/
def unicode.ToLower (tbl : List CaseRange) (r : Nat) : Nat :=
  if r ≤ 0x7F then (if 0x41 ≤ r ∧ r ≤ 0x5A then r + 32 else r)
  else unicode.to 1 r tbl

/-- Go `unicode.ToUpper`, over the case table `tbl`. -/
def unicode.ToUpper (tbl : List CaseRange) (r : Nat) : Nat :=
  if r ≤ 0x7F then (if 0x61 ≤ r ∧ r ≤ 0x7A then r - 32 else r)
  else unicode.to 0 r tbl

/-- Go `strings.Map` for a mapping that never returns a negative rune: every rune
of `s` (an invalid byte counts as `RuneError`) is replaced by the encoding of its
image. -/
def strings.Map (mapping : Nat → Nat) (s : GoString) : GoString :=
  (runes s).flatMap (fun r => EncodeRune (mapping r))

/-- Go `strings.ToLower`: the byte-wise path for an ASCII-only string, else
`Map(unicode.ToLower, s)`. -/
def strings.ToLower (tbl : List CaseRange) (s : GoString) : GoString :=
  if isASCII s then
    s.map (fun c => if 0x41 ≤ c.toNat ∧ c.toNat ≤ 0x5A then UInt8.ofNat (c.toNat + 32) else c)
  else strings.Map (unicode.ToLower tbl) s

/-- Go `strings.ToUpper`. -/
def strings.ToUpper (tbl : List CaseRange) (s : GoString) : GoString :=
  if isASCII s then
    s.map (fun c => if 0x61 ≤ c.toNat ∧ c.toNat ≤ 0x7A then UInt8.ofNat (c.toNat - 32) else c)
  else strings.Map (unicode.ToUpper tbl) s

/-- The entries of Go's `unicode.CaseRanges` for U+0041 to U+017F (Basic Latin,
Latin-1 Supplement, Latin Extended-A), in the order of the library table. -/
def latinCaseRanges : List CaseRange :=
  [ ⟨0x0041, 0x005A, (0, 32, 0)⟩,
    ⟨0x0061, 0x007A, (-32, 0, -32)⟩,
    ⟨0x00B5, 0x00B5, (743, 0, 743)⟩,
    ⟨0x00C0, 0x00D6, (0, 32, 0)⟩,
    ⟨0x00D8, 0x00DE, (0, 32, 0)⟩,
    ⟨0x00E0, 0x00F6, (-32, 0, -32)⟩,
    ⟨0x00F8, 0x00FE, (-32, 0, -32)⟩,
    ⟨0x00FF, 0x00FF, (121, 0, 121)⟩,
    ⟨0x0100, 0x012F, (UpperLower, UpperLower, UpperLower)⟩,
    ⟨0x0130, 0x0130, (0, -199, 0)⟩,
    ⟨0x0131, 0x0131, (-232, 0, -232)⟩,
    ⟨0x0132, 0x0137, (UpperLower, UpperLower, UpperLower)⟩,
    ⟨0x0139, 0x0148, (UpperLower, UpperLower, UpperLower)⟩,
    ⟨0x014A, 0x0177, (UpperLower, UpperLower, UpperLower)⟩,
    ⟨0x0178, 0x0178, (0, -121, 0)⟩,
    ⟨0x0179, 0x017E, (UpperLower, UpperLower, UpperLower)⟩,
    ⟨0x017F, 0x017F, (-300, 0, -300)⟩ ]

/-! ## Regular expressions (Go `regexp`, Perl syntax as accepted by RE2) -/

/-- Parsed regular expressions, after the operators of Go `regexp/syntax`.  A
literal is a one-rune class; a counted repetition is expanded when parsed. -/
inductive Regexp where
  | NoMatch
  | EmptyMatch
  | CharClass (negated : Bool) (ranges : List (Nat × Nat))
  | BeginLine
  | EndLine
  | BeginText
  | EndText
  | Capture (sub : Regexp)
  | Star (sub : Regexp)
  | Plus (sub : Regexp)
  | Quest (sub : Regexp)
  | Concat (a b : Regexp)
  | Alternate (a b : Regexp)
  deriving DecidableEq, Repr

/-- Error codes of Go `regexp/syntax`, and `notModelled` for the constructs this
embedding leaves out (case folding, Unicode and POSIX classes, word boundaries,
octal and braced hex escapes, `\\Q`). -/
inductive ErrorCode where
  | ErrInvalidCharRange
  | ErrInvalidEscape
  | ErrInvalidNamedCapture
  | ErrInvalidPerlOp
  | ErrInvalidRepeatOp
  | ErrInvalidRepeatSize
  | ErrMissingBracket
  | ErrMissingParen
  | ErrMissingRepeatArgument
  | ErrTrailingBackslash
  | ErrUnexpectedParen
  | notModelled
  deriving DecidableEq, Repr

/-- The parser flags that `(?flags)` can change and that matter for which strings
match: `OneLine` (cleared by `m`) and `DotNL` (set by `s`). -/
structure Flags where
  oneLine : Bool
  dotNL : Bool
  deriving DecidableEq, Repr

/-- The flags of `regexp.Compile` (`syntax.Perl`). -/
def perlFlags : Flags := { oneLine := true, dotNL := false }

/-- What a `(?` construct opens. -/
inductive PerlOpen where
  | setFlags (fl : Flags) (rest : List Char)
  | group (capturing : Bool) (fl : Flags) (rest : List Char)

/-- The flag loop of Go `parsePerlFlags`, after `(?`: letters `i m s U`, one `-`
to negate, ended by `:` (a non-capturing group) or `)`.  Anything else is
"invalid or unsupported Perl syntax".  `cur` are the flags being built, `neg`
whether a `-` was read, `saw` whether a flag followed it. -/
def parseFlagLoop (cur : Flags) (neg saw : Bool) : List Char → Except ErrorCode PerlOpen
  | [] => .error .ErrInvalidPerlOp
  | 'i' :: _ => .error .notModelled
  | 'm' :: t => parseFlagLoop { cur with oneLine := neg } neg true t
  | 's' :: t => parseFlagLoop { cur with dotNL := !neg } neg true t
  | 'U' :: t => parseFlagLoop cur neg true t
  | '-' :: t => if neg then .error .ErrInvalidPerlOp else parseFlagLoop cur true false t
  | ':' :: t => if neg && !saw then .error .ErrInvalidPerlOp else .ok (.group false cur t)
  | ')' :: t => if neg && !saw then .error .ErrInvalidPerlOp else .ok (.setFlags cur t)
  | _ :: _ => .error .ErrInvalidPerlOp

/-- Go `isValidCaptureName`. -/
def isValidCaptureName (name : List Char) : Bool :=
  !name.isEmpty && name.all (fun c => c == '_' || c.isAlphanum)

/-- Go `parsePerlFlags` on the text after `(?`: a named group `P<name>` or
`<name>`, else the flag loop.  A `<` or `P<` that is not followed by a valid name
and `>` is an "invalid named capture" (releases before Go 1.22 reject `(?<` in
the flag loop instead). -/
def parsePerlFlags (fl : Flags) (t : List Char) : Except ErrorCode PerlOpen :=
  let named (body : List Char) : Except ErrorCode PerlOpen :=
    if body.contains '>' then
      if isValidCaptureName (body.takeWhile (fun c => c != '>')) then
        .ok (.group true fl ((body.dropWhile (fun c => c != '>')).drop 1))
      else .error .ErrInvalidNamedCapture
    else .error .ErrInvalidNamedCapture
  match t with
  | 'P' :: '<' :: body => if body.isEmpty then parseFlagLoop fl false false t else named body
  | '<' :: body => if body.isEmpty then parseFlagLoop fl false false t else named body
  | _ => parseFlagLoop fl false false t

/-- Value of a hexadecimal digit (Go `unhex`). -/
def unhex (c : Char) : Option Nat :=
  if '0' ≤ c ∧ c ≤ '9' then some (c.toNat - '0'.toNat)
  else if 'a' ≤ c ∧ c ≤ 'f' then some (c.toNat - 'a'.toNat + 10)
  else if 'A' ≤ c ∧ c ≤ 'F' then some (c.toNat - 'A'.toNat + 10)
  else none

/-- Go `parseEscape` on the text after the backslash: the rune denoted and the
rest. -/
def parseEscape : List Char → Except ErrorCode (Nat × List Char)
  | [] => .error .ErrTrailingBackslash
  | 'x' :: '{' :: _ => .error .notModelled
  | 'x' :: c1 :: c2 :: t =>
    match unhex c1, unhex c2 with
    | some x, some y => .ok (x * 16 + y, t)
    | _, _ => .error .ErrInvalidEscape
  | 'a' :: t => .ok (7, t)
  | 'f' :: t => .ok (12, t)
  | 'n' :: t => .ok (10, t)
  | 'r' :: t => .ok (13, t)
  | 't' :: t => .ok (9, t)
  | 'v' :: t => .ok (11, t)
  | c :: t =>
    if c.toNat < 0x80 ∧ !c.isAlphanum then .ok (c.toNat, t)
    else if c.isDigit then .error .notModelled
    else .error .ErrInvalidEscape

/-- The Perl classes `\\d`, `\\s`, `\\w` (Go `perlGroup`). -/
def perlClass : Char → Option (List (Nat × Nat))
  | 'd' => some [(0x30, 0x39)]
  | 's' => some [(9, 10), (12, 13), (32, 32)]
  | 'w' => some [(0x30, 0x39), (0x41, 0x5A), (0x5F, 0x5F), (0x61, 0x7A)]
  | _ => none

/-- One rune of a class (Go `parseClassChar`). -/
def parseClassChar : List Char → Except ErrorCode (Nat × List Char)
  | [] => .error .ErrMissingBracket
  | '\\' :: t => parseEscape t
  | c :: t => .ok (c.toNat, t)

/-- A Perl class escape at the head of the text (Go `parsePerlClassEscape`). -/
def parsePerlClassEscape : List Char → Option (List (Nat × Nat) × List Char)
  | '\\' :: c :: rest =>
    match perlClass c with
    | some rs => some (rs, rest)
    | none => none
  | _ => none

/-- A single rune or a range `lo-hi` of a class; `[a-]` means `a` or `-`, so a
`-` right before `]` does not make a range. -/
def parseClassRange (t : List Char) : Except ErrorCode (Nat × Nat × List Char) :=
  match parseClassChar t with
  | .error e => .error e
  | .ok (lo, t1) =>
    match t1 with
    | '-' :: c2 :: t2 =>
      if c2 = ']' then .ok (lo, lo, t1)
      else
        match parseClassChar (c2 :: t2) with
        | .error e => .error e
        | .ok (hi, t3) => if hi < lo then .error .ErrInvalidCharRange else .ok (lo, hi, t3)
    | _ => .ok (lo, lo, t1)

/-- The loop of Go `parseClass` after `[` and an optional `^`: items up to the
closing `]` (a `]` that comes first is a literal).  `acc` are the ranges read so
far. -/
def parseClassItems : Nat → Bool → List (Nat × Nat) → List Char →
    Except ErrorCode (List (Nat × Nat) × List Char)
  | 0, _, _, _ => .error .ErrMissingBracket
  | fuel + 1, first, acc, t =>
    match first, t with
    | false, ']' :: rest => .ok (acc, rest)
    | _, '[' :: ':' :: _ => .error .notModelled
    | _, '\\' :: 'p' :: _ => .error .notModelled
    | _, '\\' :: 'P' :: _ => .error .notModelled
    | _, '\\' :: 'D' :: _ => .error .notModelled
    | _, '\\' :: 'S' :: _ => .error .notModelled
    | _, '\\' :: 'W' :: _ => .error .notModelled
    | _, _ =>
      match parsePerlClassEscape t with
      | some (rs, rest) => parseClassItems fuel false (acc ++ rs) rest
      | none =>
        match parseClassRange t with
        | .error e => .error e
        | .ok (lo, hi, rest) => parseClassItems fuel false (acc ++ [(lo, hi)]) rest

/-- Go `parseClass` on the text after `[`. -/
def parseClass (t : List Char) : Except ErrorCode (Regexp × List Char) :=
  match t with
  | '^' :: t1 =>
    match parseClassItems (t1.length + 1) true [] t1 with
    | .error e => .error e
    | .ok (rs, rest) => .ok (.CharClass true rs, rest)
  | _ =>
    match parseClassItems (t.length + 1) true [] t with
    | .error e => .error e
    | .ok (rs, rest) => .ok (.CharClass false rs, rest)

/-- Decimal number at the head of the text (Go `parseInt`; a leading zero before
another digit is refused). -/
def parseInt (t : List Char) : Option (Nat × List Char) :=
  match t with
  | [] => none
  | c :: t1 =>
    if !c.isDigit then none
    else if c = '0' ∧ (t1.head?.map Char.isDigit = some true) then none
    else
      some ((t.takeWhile Char.isDigit).foldl (fun n d => n * 10 + (d.toNat - '0'.toNat)) 0,
        t.dropWhile Char.isDigit)

/-- Go `parseRepeat` on the text after `{`: `min`, `max` (`none`: unbounded) and
the rest, or `none` when the text is not a repetition (the `{` is then a
literal). -/
def parseRepeat (t : List Char) : Option (Nat × Option Nat × List Char) :=
  match parseInt t with
  | none => none
  | some (min, t1) =>
    match t1 with
    | '}' :: rest => some (min, some min, rest)
    | ',' :: '}' :: rest => some (min, none, rest)
    | ',' :: t2 =>
      match parseInt t2 with
      | some (max, '}' :: rest) => some (min, some max, rest)
      | _ => none
    | _ => none

/-- `n` copies of `r` followed by `tail`. -/
def copies (r : Regexp) (tail : Regexp) : Nat → Regexp
  | 0 => tail
  | n + 1 => .Concat r (copies r tail n)

/-- Nested optional copies `(r(r(r)?)?)?`, `n` deep. -/
def optCopies (r : Regexp) : Nat → Regexp
  | 0 => .EmptyMatch
  | n + 1 => .Quest (.Concat r (optCopies r n))

/-- Expansion of `r{min,max}` (Go `simplify` on `OpRepeat`). -/
def expandRepeat (r : Regexp) (min : Nat) (max : Option Nat) : Regexp :=
  match max with
  | none => copies r (.Star r) min
  | some m => copies r (optCopies r (m - min)) min

/-- Whether the upper bound of `{min,max}` is above 1000 or below `min`. -/
def badMax (min : Nat) : Option Nat → Bool
  | some m => decide (1000 < m) || decide (m < min)
  | none => false

/-- Reads the repetition operator, if any, that follows an operand `r`, with its
optional non-greedy mark `?`; a further repetition operator right after it is
"invalid nested repetition operator". -/
def parseRepetition (r : Regexp) (t : List Char) : Except ErrorCode (Regexp × List Char) :=
  let finish (r1 : Regexp) (t1 : List Char) : Except ErrorCode (Regexp × List Char) :=
    let t2 := match t1 with
      | '?' :: t2 => t2
      | _ => t1
    match t2 with
    | '*' :: _ => .error .ErrInvalidRepeatOp
    | '+' :: _ => .error .ErrInvalidRepeatOp
    | '?' :: _ => .error .ErrInvalidRepeatOp
    | '{' :: t3 =>
      match parseRepeat t3 with
      | some _ => .error .ErrInvalidRepeatOp
      | none => .ok (r1, t2)
    | _ => .ok (r1, t2)
  match t with
  | '*' :: t1 => finish (.Star r) t1
  | '+' :: t1 => finish (.Plus r) t1
  | '?' :: t1 => finish (.Quest r) t1
  | '{' :: t1 =>
    match parseRepeat t1 with
    | none => .ok (r, t)
    | some (min, max, rest) =>
      if decide (1000 < min) || badMax min max then .error .ErrInvalidRepeatSize
      else finish (expandRepeat r min max) rest
  | _ => .ok (r, t)

/-- The operand at the head of the text that is not a group: class, escape,
anchor, dot or literal. -/
def parseOperand (fl : Flags) : List Char → Except ErrorCode (Regexp × List Char)
  | [] => .error .ErrMissingRepeatArgument
  | '[' :: t => parseClass t
  | '.' :: t => .ok (.CharClass true (if fl.dotNL then [] else [(10, 10)]), t)
  | '^' :: t => .ok (if fl.oneLine then .BeginText else .BeginLine, t)
  | '$' :: t => .ok (if fl.oneLine then .EndText else .EndLine, t)
  | '*' :: _ => .error .ErrMissingRepeatArgument
  | '+' :: _ => .error .ErrMissingRepeatArgument
  | '?' :: _ => .error .ErrMissingRepeatArgument
  | '{' :: t =>
    match parseRepeat t with
    | some _ => .error .ErrMissingRepeatArgument
    | none => .ok (.CharClass false [(0x7B, 0x7B)], t)
  | '\\' :: 'A' :: t => .ok (.BeginText, t)
  | '\\' :: 'z' :: t => .ok (.EndText, t)
  | '\\' :: 'b' :: _ => .error .notModelled
  | '\\' :: 'B' :: _ => .error .notModelled
  | '\\' :: 'C' :: _ => .error .ErrInvalidEscape
  | '\\' :: 'Q' :: _ => .error .notModelled
  | '\\' :: 'p' :: _ => .error .notModelled
  | '\\' :: 'P' :: _ => .error .notModelled
  | '\\' :: 'D' :: t => .ok (.CharClass true [(0x30, 0x39)], t)
  | '\\' :: 'S' :: t => .ok (.CharClass true [(9, 10), (12, 13), (32, 32)], t)
  | '\\' :: 'W' :: t =>
    .ok (.CharClass true [(0x30, 0x39), (0x41, 0x5A), (0x5F, 0x5F), (0x61, 0x7A)], t)
  | '\\' :: t =>
    match t with
    | c :: rest =>
      match perlClass c with
      | some rs => .ok (.CharClass false rs, rest)
      | none =>
        match parseEscape t with
        | .error e => .error e
        | .ok (r, rest1) => .ok (.CharClass false [(r, r)], rest1)
    | [] => .error .ErrTrailingBackslash
  | c :: t => .ok (.CharClass false [(c.toNat, c.toNat)], t)

/-- A regexp `cur` and, when a `|` was read, the alternatives after it. -/
def joinAlt (cur : Regexp) : Option Regexp → Regexp
  | none => cur
  | some alts => .Alternate cur alts

/-- Parses the body of a group (or the whole pattern) up to an unmatched `)` or
the end: returns the first branch, the alternatives after its `|` if any, the
flags in force at the end and the rest of the text.  A `(?flags)` changes the
flags for what follows in the enclosing group; the flags are restored at the
`)` that closes a group. -/
def parseBody : Nat → Flags → List Char →
    Except ErrorCode (Regexp × Option Regexp × Flags × List Char)
  | 0, _, _ => .error .notModelled
  | fuel + 1, fl, t =>
    match t with
    | [] => .ok (.EmptyMatch, none, fl, [])
    | ')' :: _ => .ok (.EmptyMatch, none, fl, t)
    | '|' :: t1 =>
      match parseBody fuel fl t1 with
      | .error e => .error e
      | .ok (cur, alts, fl1, rest) => .ok (.EmptyMatch, some (joinAlt cur alts), fl1, rest)
    | '(' :: '?' :: t1 =>
      match parsePerlFlags fl t1 with
      | .error e => .error e
      | .ok (.setFlags fl1 rest) =>
        match parseBody fuel fl1 rest with
        | .error e => .error e
        | .ok (cur, alts, fl2, rest1) => .ok (cur, alts, fl2, rest1)
      | .ok (.group capturing fl1 rest) =>
        match parseBody fuel fl1 rest with
        | .error e => .error e
        | .ok (cur, alts, _, ')' :: rest1) =>
          match parseRepetition
              (if capturing then .Capture (joinAlt cur alts) else joinAlt cur alts) rest1 with
          | .error e => .error e
          | .ok (r, rest2) =>
            match parseBody fuel fl rest2 with
            | .error e => .error e
            | .ok (cur2, alts2, fl2, rest3) => .ok (.Concat r cur2, alts2, fl2, rest3)
        | .ok _ => .error .ErrMissingParen
    | '(' :: t1 =>
      match parseBody fuel fl t1 with
      | .error e => .error e
      | .ok (cur, alts, _, ')' :: rest1) =>
        match parseRepetition (.Capture (joinAlt cur alts)) rest1 with
        | .error e => .error e
        | .ok (r, rest2) =>
          match parseBody fuel fl rest2 with
          | .error e => .error e
          | .ok (cur2, alts2, fl2, rest3) => .ok (.Concat r cur2, alts2, fl2, rest3)
      | .ok _ => .error .ErrMissingParen
    | _ =>
      match parseOperand fl t with
      | .error e => .error e
      | .ok (r0, rest0) =>
        match parseRepetition r0 rest0 with
        | .error e => .error e
        | .ok (r, rest2) =>
          match parseBody fuel fl rest2 with
          | .error e => .error e
          | .ok (cur2, alts2, fl2, rest3) => .ok (.Concat r cur2, alts2, fl2, rest3)

/-- Go `regexp.Compile`: parse with the Perl flags; a `)` left over is
"unexpected )". -/
def Compile (expr : String) : Except ErrorCode Regexp :=
  match parseBody (expr.data.length + 1) perlFlags expr.data with
  | .error e => .error e
  | .ok (cur, alts, _, []) => .ok (joinAlt cur alts)
  | .ok _ => .error .ErrUnexpectedParen

/-- Go `regexp.MustCompile`: `none` is the panic raised when `Compile` fails. -/
def MustCompile (expr : String) : Option Regexp :=
  match Compile expr with
  | .error _ => none
  | .ok re => some re

/-! ### Matching -/

/-- Whether a rune is in a class. -/
def inClass (negated : Bool) (ranges : List (Nat × Nat)) (x : Nat) : Bool :=
  negated != ranges.any (fun p => decide (p.1 ≤ x) && decide (x ≤ p.2))

/-- What the empty-width operators see at a position of the text: whether it is
the beginning of the text, the beginning of a line, the end of the text, the
end of a line. -/
structure Position where
  beginText : Bool
  beginLine : Bool
  endText : Bool
  endLine : Bool

/-- The position between `prev` (the rune before, if any) and `rest`. -/
def positionAt (prev : Option Nat) (rest : List Nat) : Position :=
  { beginText := prev.isNone
    beginLine := prev.isNone || prev == some 10
    endText := rest.isEmpty
    endLine := rest.isEmpty || rest.head? == some 10 }

/-- Whether `re` matches the empty string at position `p`. -/
def nullable (p : Position) : Regexp → Bool
  | .NoMatch => false
  | .EmptyMatch => true
  | .CharClass _ _ => false
  | .BeginLine => p.beginLine
  | .EndLine => p.endLine
  | .BeginText => p.beginText
  | .EndText => p.endText
  | .Capture sub => nullable p sub
  | .Star _ => true
  | .Plus sub => nullable p sub
  | .Quest _ => true
  | .Concat a b => nullable p a && nullable p b
  | .Alternate a b => nullable p a || nullable p b

/-- Concatenation, dropping what cannot match and the empty match. -/
def mkConcat : Regexp → Regexp → Regexp
  | .NoMatch, _ => .NoMatch
  | .EmptyMatch, b => b
  | a, b => .Concat a b

/-- Alternation, dropping what cannot match. -/
def mkAlternate : Regexp → Regexp → Regexp
  | .NoMatch, b => b
  | a, .NoMatch => a
  | a, b => .Alternate a b

/-- The regexp matching what `re` matches after the rune `x` read at position
`p` (a Brzozowski derivative; the empty-width operators are resolved at `p`). -/
def derivative (p : Position) (x : Nat) : Regexp → Regexp
  | .NoMatch => .NoMatch
  | .EmptyMatch => .NoMatch
  | .CharClass negated ranges => if inClass negated ranges x then .EmptyMatch else .NoMatch
  | .BeginLine => .NoMatch
  | .EndLine => .NoMatch
  | .BeginText => .NoMatch
  | .EndText => .NoMatch
  | .Capture sub => derivative p x sub
  | .Star sub => mkConcat (derivative p x sub) (.Star sub)
  | .Plus sub => mkConcat (derivative p x sub) (.Star sub)
  | .Quest sub => derivative p x sub
  | .Concat a b =>
    if nullable p a then mkAlternate (mkConcat (derivative p x a) b) (derivative p x b)
    else mkConcat (derivative p x a) b
  | .Alternate a b => mkAlternate (derivative p x a) (derivative p x b)

/-- Whether `re` matches a prefix of `rest`, the rune before being `prev`. -/
def matchesPrefix : Regexp → Option Nat → List Nat → Bool
  | re, prev, [] => nullable (positionAt prev []) re
  | re, prev, x :: rest =>
    nullable (positionAt prev (x :: rest)) re ||
      matchesPrefix (derivative (positionAt prev (x :: rest)) x re) (some x) rest

/-- Whether `re` matches somewhere in `rest` (unanchored search from every
position), the rune before being `prev`. -/
def matchesFrom (re : Regexp) : Option Nat → List Nat → Bool
  | prev, [] => matchesPrefix re prev []
  | prev, x :: rest => matchesPrefix re prev (x :: rest) || matchesFrom re (some x) rest

/-- Go `(*Regexp).MatchString`: whether the string contains a match. -/
def Regexp.MatchString (re : Regexp) (s : GoString) : Bool :=
  matchesFrom re none (runes s)

/-! ## The format validator -/

/-- Pattern of the source variable `emailRegexp` (checkmail.go:58). -/
def emailRegexpPattern : String :=
  r#"(?m)^(((((((((\s? +)?(\(((\s? +)?(([!-'*-[\]-~]*)|(\\([ -~]|\s))))*(\s? +)?\)))(\s? +)?)|(\s? +))?([A-Za-z0-9!#-'*+\/=?^_\x60{|}~-])+((((\s? +)?(\(((\s? +)?(([!-'*-[\]-~]*)|(\\([ -~]|\s))))*(\s? +)?\)))(\s? +)?)|(\s? +))?)|(((((\s? +)?(\(((\s? +)?(([!-'*-[\]-~]*)|(\\([ -~]|\s))))*(\s? +)?\)))(\s? +)?)|(\s? +))?"((\s? +)?(([!#-[\]-~])|(\\([ -~]|\s))))*(\s? +)?"))?)?(((((\s? +)?(\(((\s? +)?(([!-'*-[\]-~]*)|(\\([ -~]|\s))))*(\s? +)?\)))(\s? +)?)|(\s? +))?<(((((((\s? +)?(\(((\s? +)?(([!-'*-[\]-~]*)|(\\([ -~]|\s))))*(\s? +)?\)))(\s? +)?)|(\s? +))?(([A-Za-z0-9!#-'*+\/=?^_\x60{|}~-])+(\.([A-Za-z0-9!#-'*+\/=?^_\x60{|}~-])+)*)((((\s? +)?(\(((\s? +)?(([!-'*-[\]-~]*)|(\\([ -~]|\s))))*(\s? +)?\)))(\s? +)?)|(\s? +))?)|(((((\s? +)?(\(((\s? +)?(([!-'*-[\]-~]*)|(\\([ -~]|\s))))*(\s? +)?\)))(\s? +)?)|(\s? +))?"((\s? +)?(([!#-[\]-~])|(\\([ -~]|\s))))*(\s? +)?"))@((((((\s? +)?(\(((\s? +)?(([!-'*-[\]-~]*)|(\\([ -~]|\s))))*(\s? +)?\)))(\s? +)?)|(\s? +))?(([A-Za-z0-9!#-'*+\/=?^_\x60{|}~-])+(\.([A-Za-z0-9!#-'*+\/=?^_\x60{|}~-])+)*)((((\s? +)?(\(((\s? +)?(([!-'*-[\]-~]*)|(\\([ -~]|\s))))*(\s? +)?\)))(\s? +)?)|(\s? +))?)|(((((\s? +)?(\(((\s? +)?(([!-'*-[\]-~]*)|(\\([ -~]|\s))))*(\s? +)?\)))(\s? +)?)|(\s? +))?\[((\s? +)?([!-Z^-~]))*(\s? +)?\]((((\s? +)?(\(((\s? +)?(([!-'*-[\]-~]*)|(\\([ -~]|\s))))*(\s? +)?\)))(\s? +)?)|(\s? +))?)))>((((\s? +)?(\(((\s? +)?(([!-'*-[\]-~]*)|(\\([ -~]|\s))))*(\s? +)?\)))(\s? +)?)|(\s? +))?))|(((((((\s? +)?(\(((\s? +)?(([!-'*-[\]-~]*)|(\\([ -~]|\s))))*(\s? +)?\)))(\s? +)?)|(\s? +))?(([A-Za-z0-9!#-'*+\/=?^_\x60{|}~-])+(\.([A-Za-z0-9!#-'*+\/=?^_\x60{|}~-])+)*)((((\s? +)?(\(((\s? +)?(([!-'*-[\]-~]*)|(\\([ -~]|\s))))*(\s? +)?\)))(\s? +)?)|(\s? +))?)|(((((\s? +)?(\(((\s? +)?(([!-'*-[\]-~]*)|(\\([ -~]|\s))))*(\s? +)?\)))(\s? +)?)|(\s? +))?"((\s? +)?(([!#-[\]-~])|(\\([ -~]|\s))))*(\s? +)?"))@((((((\s? +)?(\(((\s? +)?(([!-'*-[\]-~]*)|(\\([ -~]|\s))))*(\s? +)?\)))(\s? +)?)|(\s? +))?(([A-Za-z0-9!#-'*+\/=?^_\x60{|}~-])+(\.([A-Za-z0-9!#-'*+\/=?^_\x60{|}~-])+)*)((((\s? +)?(\(((\s? +)?(([!-'*-[\]-~]*)|(\\([ -~]|\s))))*(\s? +)?\)))(\s? +)?)|(\s? +))?)|(((((\s? +)?(\(((\s? +)?(([!-'*-[\]-~]*)|(\\([ -~]|\s))))*(\s? +)?\)))(\s? +)?)|(\s? +))?\[((\s? +)?([!-Z^-~]))*(\s? +)?\]((((\s? +)?(\(((\s? +)?(([!-'*-[\]-~]*)|(\\([ -~]|\s))))*(\s? +)?\)))(\s? +)?)|(\s? +))?))))$"#

/-- Pattern of the source variable `emailRegexpSimple` (checkmail.go:61). -/
def emailRegexpSimplePattern : String :=
  r#"^(([^@\s\.])+\.?)+(?<!\.)@{1}(([^@\s\.]+?\.?)+(?<!\.)\.[^@\s\.]+)$"#

/-- Source `emailRegexp = regexp.MustCompile(...)`. -/
def emailRegexp : Option Regexp := MustCompile emailRegexpPattern

/-- Source `emailRegexpSimple = regexp.MustCompile(...)`. -/
def emailRegexpSimple : Option Regexp := MustCompile emailRegexpSimplePattern

/-- Initialisation of the package variables, in source order: `none` when a
`MustCompile` panics. -/
def packageInit : Option (Regexp × Regexp) :=
  match emailRegexp with
  | none => none
  | some re =>
    match emailRegexpSimple with
    | none => none
    | some simple => some (re, simple)

/-- Source `ValidateFormat` (checkmail.go:64-69), given the compiled
`emailRegexp` (`none` here means the variable was never initialised). -/
def ValidateFormat (tbl : List CaseRange) (email : GoString) : Outcome :=
  match emailRegexp with
  | none => .panicked
  | some re =>
    if !re.MatchString (strings.ToLower tbl email) then .returned (some ErrBadFormat)
    else .returned none

/-! # Theorems -/

/-! ## Lemmas on `split` -/

theorem lastIndexByteLoop_spec (s : GoString) (c : UInt8) (n : Nat) :
    (lastIndexByteLoop s c n = -1 ∧ ∀ j, j < n → s[j]? ≠ some c) ∨
    (∃ k : Nat, k < n ∧ lastIndexByteLoop s c n = (k : Int) ∧ s[k]? = some c ∧
      ∀ j, k < j → j < n → s[j]? ≠ some c) := by
  induction n with
  | zero => left; simp [lastIndexByteLoop]
  | succ n ih =>
    by_cases hc : s[n]? = some c
    · right
      refine ⟨n, Nat.lt_succ_self n, by simp [lastIndexByteLoop, hc], hc, ?_⟩
      intro j h1 h2; omega
    · rcases ih with ⟨h1, h2⟩ | ⟨k, hk, h1, h2, h3⟩
      · left
        refine ⟨by simp [lastIndexByteLoop, hc, h1], ?_⟩
        intro j hj
        rcases Nat.lt_succ_iff_lt_or_eq.mp hj with h | h
        · exact h2 j h
        · subst h; exact hc
      · right
        refine ⟨k, Nat.lt_succ_of_lt hk, by simp [lastIndexByteLoop, hc, h1], h2, ?_⟩
        intro j hj1 hj2
        rcases Nat.lt_succ_iff_lt_or_eq.mp hj2 with h | h
        · exact h3 j hj1 h
        · subst h; exact hc

theorem split_of_lastIndex (s : GoString) (k : Nat) (hk : k < s.length)
    (h : LastIndexByte s atSign = (k : Int)) :
    split s = some (s.take k, s.drop (k + 1)) := by
  have h1 : slice s 0 (k : Int) = some (s.take k) := by
    unfold slice
    have : (0 : Int) ≤ 0 ∧ (0 : Int) ≤ (k : Int) ∧ (k : Int) ≤ (s.length : Int) := by omega
    simp [this]
  have h2 : slice s ((k : Int) + 1) (s.length : Int) = some (s.drop (k + 1)) := by
    unfold slice
    have hc : (0 : Int) ≤ (k : Int) + 1 ∧ (k : Int) + 1 ≤ (s.length : Int) ∧
        (s.length : Int) ≤ (s.length : Int) := by omega
    have e1 : ((k : Int) + 1).toNat = k + 1 := by omega
    have e2 : ((s.length : Int) - ((k : Int) + 1)).toNat = s.length - (k + 1) := by omega
    rw [if_pos hc, e1, e2]
    congr 1
    apply List.take_of_length_le
    simp
  simp only [split, h, h1, h2]

theorem split_no_at (s : GoString) (h : atSign ∉ s) : split s = none := by
  have hl : LastIndexByte s atSign = -1 := by
    rcases lastIndexByteLoop_spec s atSign s.length with ⟨h1, _⟩ | ⟨k, hk, _, h2, _⟩
    · exact h1
    · exfalso
      apply h
      rw [List.getElem?_eq_some_iff] at h2
      obtain ⟨hk', h2⟩ := h2
      rw [← h2]
      exact List.getElem_mem _
  have : slice s 0 (-1) = none := by
    unfold slice
    simp
  simp only [split, hl, this]

theorem split_at (s : GoString) (h : atSign ∈ s) :
    ∃ k, k < s.length ∧ split s = some (s.take k, s.drop (k + 1)) ∧
      s.take k ++ atSign :: s.drop (k + 1) = s ∧ atSign ∉ s.drop (k + 1) := by
  rcases lastIndexByteLoop_spec s atSign s.length with ⟨_, h2⟩ | ⟨k, hk, h1, h2, h3⟩
  · exfalso
    obtain ⟨i, hi, he⟩ := List.getElem_of_mem h
    apply h2 i hi
    rw [List.getElem?_eq_getElem hi, he]
  · refine ⟨k, hk, split_of_lastIndex s k hk h1, ?_, ?_⟩
    · rw [List.getElem?_eq_some_iff] at h2
      obtain ⟨hk', h2⟩ := h2
      rw [← h2]
      simp
    · intro hm
      obtain ⟨i, hi, he⟩ := List.getElem_of_mem hm
      simp only [List.length_drop] at hi
      apply h3 (k + 1 + i) (by omega) (by omega)
      rw [List.getElem_drop] at he
      rw [List.getElem?_eq_getElem (by omega), he]

/-! ## Lemmas on the orchestrators -/

theorem DialTimeout_ok (w : World) (addr : GoString) (t : Nat)
    (h : (DialTimeout w addr t).1 = none) :
    DialTimeout w addr t = (none, [.dial addr t true, .afterFunc t, .newClient, .stop]) := by
  unfold DialTimeout at h ⊢
  cases hd : w.Dial addr t with
  | some err => simp [hd] at h
  | none =>
    cases hg : w.Greeting addr with
    | some err => simp [hd, hg] at h
    | none => rfl

theorem DialTimeout_err (w : World) (addr : GoString) (t : Nat) (err : GoError)
    (h : (DialTimeout w addr t).1 = some err) :
    DialTimeout w addr t = (some err, [.dial addr t false]) ∨
    DialTimeout w addr t =
      (some err, [.dial addr t true, .afterFunc t, .newClient, .close, .stop]) := by
  unfold DialTimeout at h ⊢
  cases hd : w.Dial addr t with
  | some e =>
    simp only [hd] at h
    left
    simp only [Option.some.injEq] at h
    rw [h]
  | none =>
    cases hg : w.Greeting addr with
    | some e =>
      simp only [hd, hg] at h
      right
      simp only [Option.some.injEq] at h
      rw [h]
    | none => simp [hd, hg] at h

theorem ValidateHostAndUser_run (w : World) (h m email account host : GoString)
    (mx0 : MX) (mxs : List MX)
    (hs : split email = some (account, host))
    (hl : w.LookupMX host = (mx0 :: mxs, none))
    (hd : (DialTimeout w (Sprintf_s_d mx0.Host 25) forceDisconnectAfter).1 = none) :
    ValidateHostAndUser w h m email =
      (.returned (handshake w h m email).1,
        .lookupMX host ::
          [.dial (Sprintf_s_d mx0.Host 25) forceDisconnectAfter true,
            .afterFunc forceDisconnectAfter, .newClient, .stop] ++
          (handshake w h m email).2 ++ [.close]) := by
  unfold ValidateHostAndUser
  simp only [hs, hl, DialTimeout_ok w _ _ hd]

theorem ValidateHost_run (w : World) (email account host : GoString)
    (mx0 : MX) (mxs : List MX)
    (hs : split email = some (account, host))
    (hl : w.LookupMX host = (mx0 :: mxs, none))
    (hd : (DialTimeout w (Sprintf_s_d mx0.Host 25) forceDisconnectAfter).1 = none) :
    ValidateHost w email =
      (.returned none,
        .lookupMX host ::
          [.dial (Sprintf_s_d mx0.Host 25) forceDisconnectAfter true,
            .afterFunc forceDisconnectAfter, .newClient, .stop] ++ [.close]) := by
  unfold ValidateHost
  simp only [hs, hl, DialTimeout_ok w _ _ hd]

theorem handshake_cases (w : World) (h m e : GoString) :
    (∃ err, w.Reply [] (.Hello h) = some err ∧
      handshake w h m e = (some (NewSmtpError err).toError, [.command (.Hello h)])) ∨
    (∃ err, w.Reply [] (.Hello h) = none ∧ w.Reply [.Hello h] (.Mail m) = some err ∧
      handshake w h m e =
        (some (NewSmtpError err).toError, [.command (.Hello h), .command (.Mail m)])) ∨
    (∃ err, w.Reply [] (.Hello h) = none ∧ w.Reply [.Hello h] (.Mail m) = none ∧
      w.Reply [.Hello h, .Mail m] (.Rcpt e) = some err ∧
      handshake w h m e =
        (some (NewSmtpError err).toError,
          [.command (.Hello h), .command (.Mail m), .command (.Rcpt e)])) ∨
    (w.Reply [] (.Hello h) = none ∧ w.Reply [.Hello h] (.Mail m) = none ∧
      w.Reply [.Hello h, .Mail m] (.Rcpt e) = none ∧
      handshake w h m e =
        (none, [.command (.Hello h), .command (.Mail m), .command (.Rcpt e)])) := by
  unfold handshake
  cases h1 : w.Reply [] (.Hello h) with
  | some err => left; exact ⟨err, rfl, rfl⟩
  | none =>
    cases h2 : w.Reply [.Hello h] (.Mail m) with
    | some err => right; left; exact ⟨err, rfl, rfl, rfl⟩
    | none =>
      cases h3 : w.Reply [.Hello h, .Mail m] (.Rcpt e) with
      | some err => right; right; left; exact ⟨err, rfl, rfl, rfl, rfl⟩
      | none => right; right; right; exact ⟨rfl, rfl, rfl, rfl⟩

theorem connOpen_ValidateHost (w : World) (email : GoString) :
    connOpen false (ValidateHost w email).2 = false := by
  unfold ValidateHost
  cases hs : split email with
  | none => rfl
  | some p =>
    obtain ⟨account, host⟩ := p
    simp only
    rcases hl : w.LookupMX host with ⟨mx, err⟩
    cases err with
    | some e => cases mx <;> rfl
    | none =>
      cases mx with
      | nil => rfl
      | cons mx0 mxs =>
        simp only
        cases hd : (DialTimeout w (Sprintf_s_d mx0.Host 25) forceDisconnectAfter).1 with
        | none => rw [DialTimeout_ok w _ _ hd]; rfl
        | some e =>
          rcases DialTimeout_err w _ _ e hd with h | h <;> rw [h] <;> rfl

theorem connOpen_ValidateHostAndUser (w : World) (h m email : GoString) :
    connOpen false (ValidateHostAndUser w h m email).2 = false := by
  unfold ValidateHostAndUser
  cases hs : split email with
  | none => rfl
  | some p =>
    obtain ⟨account, host⟩ := p
    simp only
    rcases hl : w.LookupMX host with ⟨mx, err⟩
    cases err with
    | some e => cases mx <;> rfl
    | none =>
      cases mx with
      | nil => rfl
      | cons mx0 mxs =>
        simp only
        cases hd : (DialTimeout w (Sprintf_s_d mx0.Host 25) forceDisconnectAfter).1 with
        | none =>
          rw [DialTimeout_ok w _ _ hd]
          rcases handshake_cases w h m email with ⟨e, _, hh⟩ | ⟨e, _, _, hh⟩ |
            ⟨e, _, _, _, hh⟩ | ⟨_, _, _, hh⟩ <;> rw [hh] <;> rfl
        | some e =>
          rcases DialTimeout_err w _ _ e hd with h | h <;> rw [h] <;> rfl

/-! ## Lemmas on UTF-8 and case mapping -/

theorem toNat_ofNat_byte (n : Nat) (h : n < 256) : (UInt8.ofNat n).toNat = n :=
  UInt8.toNat_ofNat_of_lt h

theorem toNat_lt_256 (c : UInt8) : c.toNat < 256 := UInt8.toNat_lt_size c

theorem DecodeRune_EncodeRune (r : Nat) (hv : ValidRune r) (rest : GoString) :
    DecodeRune (EncodeRune r ++ rest) = (r, (EncodeRune r).length) := by
  obtain ⟨h1, h2⟩ := hv
  unfold EncodeRune
  by_cases c1 : r < 0x80
  · simp only [if_pos c1, List.singleton_append, DecodeRune, List.length_singleton]
    rw [toNat_ofNat_byte r (by omega)]
    simp [c1]
  · by_cases c2 : r < 0x800
    · simp only [if_neg c1, if_pos c2, List.cons_append, List.nil_append, DecodeRune, inRange]
      rw [toNat_ofNat_byte (0xC0 + r / 64) (by omega), toNat_ofNat_byte (0x80 + r % 64) (by omega)]
      rw [if_neg (by omega), if_neg (by omega), if_pos (by omega)]
      have e1 : decide (0x80 ≤ 0x80 + r % 64) = true := by simp
      have e2 : decide (0x80 + r % 64 ≤ 0xBF) = true := by simp; omega
      simp only [e1, e2, Bool.and_self, if_true, List.length_cons, List.length_nil]
      congr 1
      omega
    · have c3 : ¬ (0x10FFFF < r ∨ (0xD800 ≤ r ∧ r ≤ 0xDFFF)) := by
        intro h; rcases h with h | h
        · omega
        · exact h2 h
      by_cases c4 : r < 0x10000
      · simp only [if_neg c1, if_neg c2, if_neg c3, if_pos c4, List.cons_append, List.nil_append,
          DecodeRune, inRange]
        rw [toNat_ofNat_byte (0xE0 + r / 4096) (by omega),
          toNat_ofNat_byte (0x80 + r / 64 % 64) (by omega),
          toNat_ofNat_byte (0x80 + r % 64) (by omega)]
        rw [if_neg (by omega), if_neg (by omega), if_neg (by omega), if_pos (by omega)]
        have e1 : (decide ((if 0xE0 + r / 4096 = 0xE0 then 0xA0 else 0x80) ≤ 0x80 + r / 64 % 64) &&
            decide (0x80 + r / 64 % 64 ≤ if 0xE0 + r / 4096 = 0xED then 0x9F else 0xBF) &&
            (decide (0x80 ≤ 0x80 + r % 64) && decide (0x80 + r % 64 ≤ 0xBF))) = true := by
          simp only [Bool.and_eq_true, decide_eq_true_eq]
          refine ⟨⟨?_, ?_⟩, ?_, ?_⟩
          · split <;> omega
          · split
            · have : r < 0xD800 ∨ 0xDFFF < r := by omega
              omega
            · omega
          · omega
          · omega
        rw [if_pos e1]
        simp only [List.length_cons, List.length_nil]
        congr 1
        omega
      · simp only [if_neg c1, if_neg c2, if_neg c3, if_neg c4, List.cons_append, List.nil_append,
          DecodeRune, inRange]
        rw [toNat_ofNat_byte (0xF0 + r / 262144) (by omega),
          toNat_ofNat_byte (0x80 + r / 4096 % 64) (by omega),
          toNat_ofNat_byte (0x80 + r / 64 % 64) (by omega),
          toNat_ofNat_byte (0x80 + r % 64) (by omega)]
        rw [if_neg (by omega), if_neg (by omega), if_neg (by omega), if_neg (by omega),
          if_pos (by omega)]
        have e1 : (decide ((if 0xF0 + r / 262144 = 0xF0 then 0x90 else 0x80) ≤
              0x80 + r / 4096 % 64) &&
            decide (0x80 + r / 4096 % 64 ≤ if 0xF0 + r / 262144 = 0xF4 then 0x8F else 0xBF) &&
            (decide (0x80 ≤ 0x80 + r / 64 % 64) && decide (0x80 + r / 64 % 64 ≤ 0xBF)) &&
            (decide (0x80 ≤ 0x80 + r % 64) && decide (0x80 + r % 64 ≤ 0xBF))) = true := by
          simp only [Bool.and_eq_true, decide_eq_true_eq]
          refine ⟨⟨⟨?_, ?_⟩, ?_, ?_⟩, ?_, ?_⟩
          · split <;> omega
          · split <;> omega
          · omega
          · omega
          · omega
          · omega
        rw [if_pos e1]
        simp only [List.length_cons, List.length_nil]
        congr 1
        omega

theorem EncodeRune_ne_nil (r : Nat) : EncodeRune r ≠ [] := by
  unfold EncodeRune
  split_ifs <;> simp

theorem runesFrom_skip (tl rest : GoString) :
    runesFrom tl.length (tl ++ rest) = runesFrom 0 rest := by
  induction tl with
  | nil => rfl
  | cons c tl ih => simpa [runesFrom] using ih

theorem runes_EncodeRune_append (r : Nat) (hv : ValidRune r) (rest : GoString) :
    runesFrom 0 (EncodeRune r ++ rest) = r :: runesFrom 0 rest := by
  have hd := DecodeRune_EncodeRune r hv rest
  cases he : EncodeRune r with
  | nil => exact absurd he (EncodeRune_ne_nil r)
  | cons c tl =>
    rw [he] at hd
    simp only [List.cons_append] at hd ⊢
    simp only [runesFrom, hd, List.length_cons, Nat.add_sub_cancel]
    rw [runesFrom_skip]

theorem runes_flatMap_EncodeRune (rs : List Nat) (hv : ∀ r ∈ rs, ValidRune r) :
    runes (rs.flatMap EncodeRune) = rs := by
  induction rs with
  | nil => rfl
  | cons r rs ih =>
    have h1 : ValidRune r := hv r (List.mem_cons_self _ _)
    have h2 : ∀ x ∈ rs, ValidRune x := fun x hx => hv x (List.mem_cons_of_mem _ hx)
    have := ih h2
    unfold runes at this ⊢
    simp only [List.flatMap_cons]
    rw [runes_EncodeRune_append r h1, this]

theorem DecodeRune_valid (s : GoString) : ValidRune (DecodeRune s).1 := by
  have hE : ValidRune RuneError := by decide
  rcases s with _ | ⟨c0, _ | ⟨c1, _ | ⟨c2, _ | ⟨c3, t⟩⟩⟩⟩
  · exact hE
  all_goals
    have hb0 := toNat_lt_256 c0
    try have hb1 := toNat_lt_256 c1
    try have hb2 := toNat_lt_256 c2
    try have hb3 := toNat_lt_256 c3
    simp only [DecodeRune, inRange]
    split_ifs <;>
      first
      | exact hE
      | (try simp only [Bool.and_eq_true, decide_eq_true_eq] at *
         unfold ValidRune
         try simp only
         omega)

theorem runesFrom_valid (s : GoString) : ∀ skip, ∀ r ∈ runesFrom skip s, ValidRune r := by
  induction s with
  | nil => intro skip r hr; simp [runesFrom] at hr
  | cons c t ih =>
    intro skip r hr
    cases skip with
    | zero =>
      simp only [runesFrom, List.mem_cons] at hr
      rcases hr with h | h
      · rw [h]; exact DecodeRune_valid _
      · exact ih _ r h
    | succ k =>
      simp only [runesFrom] at hr
      exact ih _ r hr

theorem Map_eq (f : Nat → Nat) (s : GoString) :
    strings.Map f s = ((runes s).map f).flatMap EncodeRune := by
  simp [strings.Map, List.flatMap_map]

theorem Map_Map (f g : Nat → Nat) (hf : ∀ r, ValidRune r → ValidRune (f r)) (s : GoString) :
    strings.Map g (strings.Map f s) = strings.Map (fun r => g (f r)) s := by
  rw [Map_eq g, Map_eq f, runes_flatMap_EncodeRune, Map_eq, List.map_map]
  · rfl
  · intro r hr
    simp only [List.mem_map] at hr
    obtain ⟨x, hx, rfl⟩ := hr
    exact hf x (runesFrom_valid s 0 x hx)

theorem runes_of_isASCII (s : GoString) (h : isASCII s = true) :
    runes s = s.map UInt8.toNat := by
  unfold runes
  induction s with
  | nil => rfl
  | cons c t ih =>
    simp only [isASCII, List.all_cons, Bool.and_eq_true, decide_eq_true_eq] at h
    have ht : isASCII t = true := h.2
    have hd : DecodeRune (c :: t) = (c.toNat, 1) := by
      simp [DecodeRune, h.1]
    simp only [runesFrom, hd, List.map_cons]
    rw [ih ht]

theorem ofNat_toNat_byte (c : UInt8) : UInt8.ofNat c.toNat = c := by
  apply UInt8.ext
  rw [toNat_ofNat_byte _ (toNat_lt_256 c)]

theorem asciiLower_eq (tbl : List CaseRange) (s : GoString) (h : isASCII s = true) :
    s.map (fun c => if 0x41 ≤ c.toNat ∧ c.toNat ≤ 0x5A then UInt8.ofNat (c.toNat + 32) else c) =
      (s.map UInt8.toNat).flatMap (fun r => EncodeRune (unicode.ToLower tbl r)) := by
  induction s with
  | nil => rfl
  | cons c t ih =>
    simp only [isASCII, List.all_cons, Bool.and_eq_true, decide_eq_true_eq] at h
    have ht : isASCII t = true := h.2
    have h7 : c.toNat ≤ 0x7F := by omega
    simp only [List.map_cons, List.flatMap_cons]
    rw [← ih ht]
    by_cases hu : 0x41 ≤ c.toNat ∧ c.toNat ≤ 0x5A
    · have e : EncodeRune (unicode.ToLower tbl c.toNat) = [UInt8.ofNat (c.toNat + 32)] := by
        simp only [unicode.ToLower, if_pos h7, if_pos hu, EncodeRune]
        rw [if_pos (by omega)]
      rw [e, if_pos hu]; rfl
    · have e : EncodeRune (unicode.ToLower tbl c.toNat) = [c] := by
        simp only [unicode.ToLower, if_pos h7, if_neg hu, EncodeRune]
        rw [if_pos (by omega), ofNat_toNat_byte]
      rw [e, if_neg hu]; rfl

theorem ToLower_eq_Map (tbl : List CaseRange) (s : GoString) :
    strings.ToLower tbl s = strings.Map (unicode.ToLower tbl) s := by
  unfold strings.ToLower
  by_cases ha : isASCII s = true
  · rw [if_pos ha, strings.Map, runes_of_isASCII s ha]
    exact asciiLower_eq tbl s ha
  · rw [if_neg ha]

theorem ToLower_idempotent (tbl : List CaseRange)
    (hidem : ∀ r, unicode.ToLower tbl (unicode.ToLower tbl r) = unicode.ToLower tbl r)
    (hvalid : ∀ r, ValidRune r → ValidRune (unicode.ToLower tbl r)) (s : GoString) :
    strings.ToLower tbl (strings.ToLower tbl s) = strings.ToLower tbl s := by
  rw [ToLower_eq_Map, ToLower_eq_Map, Map_Map _ _ hvalid]
  simp only [hidem]

theorem ToLower_ToUpper_of_isASCII (tbl : List CaseRange) (s : GoString)
    (h : isASCII s = true) :
    strings.ToLower tbl (strings.ToUpper tbl s) = strings.ToLower tbl s := by
  have hup : isASCII (s.map (fun c =>
      if 0x61 ≤ c.toNat ∧ c.toNat ≤ 0x7A then UInt8.ofNat (c.toNat - 32) else c)) = true := by
    simp only [isASCII, List.all_eq_true, decide_eq_true_eq, List.mem_map] at h ⊢
    rintro x ⟨c, hc, rfl⟩
    have := h c hc
    split_ifs
    · rw [toNat_ofNat_byte _ (by omega)]; omega
    · exact this
  unfold strings.ToUpper
  rw [if_pos h]
  unfold strings.ToLower
  rw [if_pos hup, if_pos h, List.map_map]
  apply List.map_congr_left
  intro c hc
  simp only [isASCII, List.all_eq_true, decide_eq_true_eq] at h
  have hlt := h c hc
  simp only [Function.comp]
  by_cases hl : 0x61 ≤ c.toNat ∧ c.toNat ≤ 0x7A
  · rw [if_pos hl, toNat_ofNat_byte _ (by omega)]
    rw [if_pos (by omega), if_neg (by omega)]
    apply UInt8.ext
    rw [toNat_ofNat_byte _ (by omega)]
    omega
  · rw [if_neg hl]

/-! ## Claims on the splitter -/

/-- C1: for every string `s` that contains `'@'`, `split s` returns `(account, host)`
with `account ++ "@" ++ host = s` and no `'@'` in `host` (the split is at the last
`'@'`); in particular when `s = "@" ++ d` with no `'@'` in `d` the result is
`("", d)`. -/
theorem split_at_last_at (s : GoString) (h : atSign ∈ s) :
    ∃ account host, split s = some (account, host) ∧ account ++ atSign :: host = s ∧
      atSign ∉ host ∧ ∀ d, s = atSign :: d → atSign ∉ d → account = [] ∧ host = d := by
  obtain ⟨k, hk, h1, h2, h3⟩ := split_at s h
  refine ⟨s.take k, s.drop (k + 1), h1, h2, h3, ?_⟩
  intro d hd hnd
  cases k with
  | zero => subst hd; simp
  | succ k =>
    exfalso
    apply hnd
    have hm : atSign ∈ List.drop (k + 1) s := by
      have h4 : List.drop (k + 1) s = atSign :: List.drop (k + 1 + 1) s := by
        have := congrArg (List.drop (k + 1)) h2
        rw [List.drop_append_of_le_length (by simp; omega)] at this
        rw [List.drop_eq_nil_of_le (by simp)] at this
        simpa using this.symm
      rw [h4]
      exact List.mem_cons_self _ _
    subst hd
    have hm2 : atSign ∈ List.drop k d := by simpa using hm
    exact List.mem_of_mem_drop hm2

/-- Witness of C1 at `"@domain.com"`. -/
theorem split_at_last_at_witness :
    atSign ∈ str "@domain.com" ∧ split (str "@domain.com") = some ([], str "domain.com") ∧
      ∃ account host, split (str "@domain.com") = some (account, host) ∧
        account ++ atSign :: host = str "@domain.com" ∧ atSign ∉ host ∧
        ∀ d, str "@domain.com" = atSign :: d → atSign ∉ d → account = [] ∧ host = d :=
  ⟨by decide, by decide, split_at_last_at (str "@domain.com") (by decide)⟩

/-- C2: on a string without `'@'` the code does not return an empty domain part:
`split` panics on the slice `email[:-1]`, and so does `ValidateMX`, before any
lookup is made. -/
theorem split_without_at_panics :
    split (str "not-an-email") = none ∧ split (str "") = none ∧
      ∀ w : World, ValidateMX w (str "not-an-email") = (.panicked, []) := by
  refine ⟨by decide, by decide, ?_⟩
  intro w
  have h : split (str "not-an-email") = none := by decide
  simp only [ValidateMX, h]

/-! ## Claims on the orchestrators -/

/-- When the resolver reports an error, the three validators return exactly
`ErrUnresolvableHost`, whatever the error was, and make no dial. -/
theorem lookup_error_unresolvable (w : World) (h m email account host : GoString)
    (err : GoError) (hs : split email = some (account, host))
    (hl : (w.LookupMX host).2 = some err) :
    ValidateMX w email = (.returned (some ErrUnresolvableHost), [.lookupMX host]) ∧
      ValidateHost w email = (.returned (some ErrUnresolvableHost), [.lookupMX host]) ∧
      ValidateHostAndUser w h m email =
        (.returned (some ErrUnresolvableHost), [.lookupMX host]) := by
  rcases hw : w.LookupMX host with ⟨mx, e⟩
  rw [hw] at hl
  simp only at hl
  subst hl
  refine ⟨?_, ?_, ?_⟩
  · simp only [ValidateMX, hs, hw]
  · simp only [ValidateHost, hs, hw]
  · simp only [ValidateHostAndUser, hs, hw]

/-- C3: for an address that splits (it contains `'@'`) and whose domain has no MX
records, that is, the resolver, which keeps the contract of `net.LookupMX`,
reports an error or returns an empty record set, `ValidateMX`, `ValidateHost`
and `ValidateHostAndUser` return exactly `ErrUnresolvableHost`; the only library
call made is the lookup, so no dial is attempted, and the resolver's error does
not appear in the result. -/
theorem no_mx_records_unresolvable (w : World) (h m email account host : GoString)
    (hs : split email = some (account, host))
    (hc : ResolverContract w)
    (hno : (w.LookupMX host).1 = [] ∨ ∃ err, (w.LookupMX host).2 = some err) :
    ValidateMX w email = (.returned (some ErrUnresolvableHost), [.lookupMX host]) ∧
      ValidateHost w email = (.returned (some ErrUnresolvableHost), [.lookupMX host]) ∧
      ValidateHostAndUser w h m email =
        (.returned (some ErrUnresolvableHost), [.lookupMX host]) ∧
      dials (ValidateHost w email).2 = [] ∧
      dials (ValidateHostAndUser w h m email).2 = [] ∧
      ErrUnresolvableHost = .errorString (str "unresolvable host") := by
  have herr : ∃ err, (w.LookupMX host).2 = some err := by
    rcases hno with h0 | h0
    · cases he : (w.LookupMX host).2 with
      | none => exact absurd h0 (hc host he)
      | some err => exact ⟨err, rfl⟩
    · exact h0
  obtain ⟨err, he⟩ := herr
  obtain ⟨h1, h2, h3⟩ := lookup_error_unresolvable w h m email account host err hs he
  refine ⟨h1, h2, h3, ?_, ?_, rfl⟩
  · rw [h2]; rfl
  · rw [h3]; rfl

/-- Witness of C3: the resolver reports "no such host" with no records. -/
theorem no_mx_records_unresolvable_witness :
    ValidateMX noRecordsWorld (str "user@example.com") =
        (.returned (some ErrUnresolvableHost), [.lookupMX (str "example.com")]) ∧
      ValidateHost noRecordsWorld (str "user@example.com") =
        (.returned (some ErrUnresolvableHost), [.lookupMX (str "example.com")]) ∧
      ValidateHostAndUser noRecordsWorld (str "mail.local") (str "me@mail.local")
          (str "user@example.com") =
        (.returned (some ErrUnresolvableHost), [.lookupMX (str "example.com")]) :=
  have hw := no_mx_records_unresolvable noRecordsWorld (str "mail.local") (str "me@mail.local")
    (str "user@example.com") (str "user") (str "example.com") (by decide)
    (fun _ hnil => by simp [noRecordsWorld] at hnil) (Or.inl rfl)
  ⟨hw.1, hw.2.1, hw.2.2.1⟩

/-- C4: when the lookup and the dial succeed, the commands issued are a prefix of
`[Hello serverHostName, Mail serverMailAddress, Rcpt email]`; the call returns nil
exactly when the three stages succeed; otherwise exactly the stages up to the
first failing one were issued and the result is the `SmtpError` wrapping that
stage's error: its `Err` is that error and its `Error()` is that error's
message. -/
theorem ValidateHostAndUser_stages (w : World)
    (serverHostName serverMailAddress email account host : GoString)
    (mx0 : MX) (mxs : List MX)
    (hs : split email = some (account, host))
    (hl : w.LookupMX host = (mx0 :: mxs, none))
    (hd : (DialTimeout w (Sprintf_s_d mx0.Host 25) forceDisconnectAfter).1 = none) :
    commands (ValidateHostAndUser w serverHostName serverMailAddress email).2 <+:
        [.Hello serverHostName, .Mail serverMailAddress, .Rcpt email] ∧
      ((ValidateHostAndUser w serverHostName serverMailAddress email).1 = .returned none ↔
        w.Reply [] (.Hello serverHostName) = none ∧
        w.Reply [.Hello serverHostName] (.Mail serverMailAddress) = none ∧
        w.Reply [.Hello serverHostName, .Mail serverMailAddress] (.Rcpt email) = none) ∧
      (∀ err, w.Reply [] (.Hello serverHostName) = some err →
        (ValidateHostAndUser w serverHostName serverMailAddress email).1 =
            .returned (some (NewSmtpError err).toError) ∧
          (ValidateHostAndUser w serverHostName serverMailAddress email).1 =
            .returned (some (.smtpError err)) ∧
          commands (ValidateHostAndUser w serverHostName serverMailAddress email).2 =
            [.Hello serverHostName]) ∧
      (∀ err, w.Reply [] (.Hello serverHostName) = none →
        w.Reply [.Hello serverHostName] (.Mail serverMailAddress) = some err →
        (ValidateHostAndUser w serverHostName serverMailAddress email).1 =
            .returned (some (NewSmtpError err).toError) ∧
          (ValidateHostAndUser w serverHostName serverMailAddress email).1 =
            .returned (some (.smtpError err)) ∧
          commands (ValidateHostAndUser w serverHostName serverMailAddress email).2 =
            [.Hello serverHostName, .Mail serverMailAddress]) ∧
      (∀ err, w.Reply [] (.Hello serverHostName) = none →
        w.Reply [.Hello serverHostName] (.Mail serverMailAddress) = none →
        w.Reply [.Hello serverHostName, .Mail serverMailAddress] (.Rcpt email) = some err →
        (ValidateHostAndUser w serverHostName serverMailAddress email).1 =
            .returned (some (NewSmtpError err).toError) ∧
          (ValidateHostAndUser w serverHostName serverMailAddress email).1 =
            .returned (some (.smtpError err)) ∧
          commands (ValidateHostAndUser w serverHostName serverMailAddress email).2 =
            [.Hello serverHostName, .Mail serverMailAddress, .Rcpt email]) ∧
      ((ValidateHostAndUser w serverHostName serverMailAddress email).1 = .returned none →
        commands (ValidateHostAndUser w serverHostName serverMailAddress email).2 =
          [.Hello serverHostName, .Mail serverMailAddress, .Rcpt email]) ∧
      (∀ err, (NewSmtpError err).Err = err ∧ (NewSmtpError err).Error = err.Error ∧
        (NewSmtpError err).toError = .smtpError err ∧
        (NewSmtpError err).toError.Error = err.Error) := by
  rw [ValidateHostAndUser_run w _ _ _ account host mx0 mxs hs hl hd]
  have hw : ∀ err, (NewSmtpError err).Err = err ∧ (NewSmtpError err).Error = err.Error ∧
      (NewSmtpError err).toError = .smtpError err ∧
      (NewSmtpError err).toError.Error = err.Error :=
    fun err => ⟨rfl, rfl, rfl, rfl⟩
  rcases handshake_cases w serverHostName serverMailAddress email with
    ⟨e, h1, hh⟩ | ⟨e, h1, h2, hh⟩ | ⟨e, h1, h2, h3, hh⟩ | ⟨h1, h2, h3, hh⟩ <;>
  · rw [hh]
    refine ⟨?_, ?_, ?_, ?_, ?_, ?_, hw⟩ <;>
      simp [commands, h1, *, SmtpError.toError, NewSmtpError, List.prefix_iff_eq_take]

/-- Witness of C4: a server that accepts HELO and MAIL FROM and rejects RCPT TO;
the result is the `SmtpError` holding the server's rejection. -/
theorem ValidateHostAndUser_stages_witness :
    (ValidateHostAndUser rejectRcptWorld (str "mail.local") (str "me@mail.local")
        (str "user@example.com")).1 =
      .returned (some (.smtpError (.library (str "550 no such user")))) ∧
    commands (ValidateHostAndUser rejectRcptWorld (str "mail.local") (str "me@mail.local")
        (str "user@example.com")).2 =
      [.Hello (str "mail.local"), .Mail (str "me@mail.local"), .Rcpt (str "user@example.com")] ∧
    (NewSmtpError (.library (str "550 no such user"))).Err = .library (str "550 no such user") :=
  have hw := ValidateHostAndUser_stages rejectRcptWorld (str "mail.local") (str "me@mail.local")
    (str "user@example.com") (str "user") (str "example.com")
    { Host := str "mx.example.com", Pref := 10 } [] (by decide) rfl rfl
  have hr := hw.2.2.2.2.1 (.library (str "550 no such user")) rfl rfl rfl
  ⟨hr.2.1, hr.2.2, (hw.2.2.2.2.2.2 (.library (str "550 no such user"))).1⟩

/-- C5: when the dial succeeds, the trace of `ValidateHostAndUser` holds exactly one
`close`, it is the last event, no command follows it and no connection is open at
the end; the same holds for `ValidateHost`, which then returns nil; and in every
run of either function, also when the lookup or the dial fails or the call
panics, no connection is open at the end. -/
theorem connection_closed_once (w : World) (h m email account host : GoString)
    (mx0 : MX) (mxs : List MX)
    (hs : split email = some (account, host))
    (hl : w.LookupMX host = (mx0 :: mxs, none))
    (hd : (DialTimeout w (Sprintf_s_d mx0.Host 25) forceDisconnectAfter).1 = none) :
    ((ValidateHostAndUser w h m email).2.count .close = 1 ∧
      (ValidateHostAndUser w h m email).2.getLast? = some .close ∧
      commands (afterClose (ValidateHostAndUser w h m email).2) = [] ∧
      connOpen false (ValidateHostAndUser w h m email).2 = false) ∧
    ((ValidateHost w email).1 = .returned none ∧
      (ValidateHost w email).2.count .close = 1 ∧
      (ValidateHost w email).2.getLast? = some .close ∧
      connOpen false (ValidateHost w email).2 = false) ∧
    ∀ (w' : World) (h' m' email' : GoString),
      connOpen false (ValidateHostAndUser w' h' m' email').2 = false ∧
      connOpen false (ValidateHost w' email').2 = false := by
  refine ⟨?_, ?_, fun w' h' m' e' =>
    ⟨connOpen_ValidateHostAndUser w' h' m' e', connOpen_ValidateHost w' e'⟩⟩
  · rw [ValidateHostAndUser_run w _ _ _ account host mx0 mxs hs hl hd]
    rcases handshake_cases w h m email with
      ⟨e, h1, hh⟩ | ⟨e, h1, h2, hh⟩ | ⟨e, h1, h2, h3, hh⟩ | ⟨h1, h2, h3, hh⟩ <;>
    · rw [hh]
      simp [commands, afterClose, connOpen, List.count_cons]
  · rw [ValidateHost_run w _ account host mx0 mxs hs hl hd]
    simp [connOpen, List.count_cons]

/-- Witness of C5: a full successful handshake. -/
theorem connection_closed_once_witness :
    (ValidateHostAndUser friendlyWorld (str "mail.local") (str "me@mail.local")
        (str "user@example.com")).2.count .close = 1 ∧
      (ValidateHostAndUser friendlyWorld (str "mail.local") (str "me@mail.local")
        (str "user@example.com")).2.getLast? = some .close :=
  have h := (connection_closed_once friendlyWorld (str "mail.local") (str "me@mail.local")
    (str "user@example.com") (str "user") (str "example.com")
    { Host := str "mx.example.com", Pref := 10 } [] (by decide) rfl rfl).1
  ⟨h.1, h.2.1⟩

/-- C6: for an address that splits (it contains `'@'`) and whose lookup succeeds
with a non-empty record list, `ValidateHost` and
`ValidateHostAndUser` make exactly one dial attempt, to `mx[0].Host ++ ":25"` with
the timeout `forceDisconnectAfter` (5 seconds); `ValidateHost` returns nil exactly
when that dial succeeds, and otherwise returns the `SmtpError` whose `Err` is the
dial error and whose `Error()` is the dial error's message. -/
theorem ValidateHost_single_dial (w : World) (email account host : GoString)
    (mx0 : MX) (mxs : List MX)
    (hs : split email = some (account, host))
    (hl : w.LookupMX host = (mx0 :: mxs, none)) :
    dials (ValidateHost w email).2 = [(mx0.Host ++ str ":25", forceDisconnectAfter)] ∧
    forceDisconnectAfter = 5 * 1000000000 ∧
    ((ValidateHost w email).1 = .returned none ↔
      (DialTimeout w (mx0.Host ++ str ":25") forceDisconnectAfter).1 = none) ∧
    (∀ err, (DialTimeout w (mx0.Host ++ str ":25") forceDisconnectAfter).1 = some err →
      (ValidateHost w email).1 = .returned (some (NewSmtpError err).toError) ∧
      (NewSmtpError err).Err = err ∧ (NewSmtpError err).Error = err.Error) ∧
    ∀ h m, dials (ValidateHostAndUser w h m email).2 =
      [(mx0.Host ++ str ":25", forceDisconnectAfter)] := by
  have hsp : ∀ x : GoString, Sprintf_s_d x 25 = x ++ str ":25" := by
    intro x
    have e1 : str ":" = [0x3A] := by decide
    have e2 : str (Nat.repr 25) = [0x32, 0x35] := by decide
    have e3 : str ":25" = [0x3A, 0x32, 0x35] := by decide
    simp [Sprintf_s_d, e1, e2, e3]
  rw [← hsp]
  cases hd : (DialTimeout w (Sprintf_s_d mx0.Host 25) forceDisconnectAfter).1 with
  | none =>
    refine ⟨?_, rfl, ?_, ?_, ?_⟩
    · rw [ValidateHost_run w _ account host mx0 mxs hs hl hd]; rfl
    · rw [ValidateHost_run w _ account host mx0 mxs hs hl hd]; simp
    · intro err he; simp at he
    · intro h m
      rw [ValidateHostAndUser_run w _ _ _ account host mx0 mxs hs hl hd]
      rcases handshake_cases w h m email with
        ⟨e, h1, hh⟩ | ⟨e, h1, h2, hh⟩ | ⟨e, h1, h2, h3, hh⟩ | ⟨h1, h2, h3, hh⟩ <;>
      · rw [hh]; rfl
  | some e =>
    have hVH : ValidateHost w email =
        (.returned (some (NewSmtpError e).toError),
          .lookupMX host :: (DialTimeout w (Sprintf_s_d mx0.Host 25) forceDisconnectAfter).2) := by
      rcases DialTimeout_err w _ _ e hd with h | h <;>
      · simp only [ValidateHost, hs, hl, h]
    have hVHU : ∀ h m, ValidateHostAndUser w h m email =
        (.returned (some (NewSmtpError e).toError),
          .lookupMX host :: (DialTimeout w (Sprintf_s_d mx0.Host 25) forceDisconnectAfter).2) := by
      intro h m
      rcases DialTimeout_err w _ _ e hd with h | h <;>
      · simp only [ValidateHostAndUser, hs, hl, h]
    have hdl : dials (.lookupMX host ::
        (DialTimeout w (Sprintf_s_d mx0.Host 25) forceDisconnectAfter).2) =
        [(Sprintf_s_d mx0.Host 25, forceDisconnectAfter)] := by
      rcases DialTimeout_err w _ _ e hd with h | h <;> rw [h] <;> rfl
    refine ⟨?_, rfl, ?_, ?_, ?_⟩
    · rw [hVH]; exact hdl
    · rw [hVH]; simp
    · intro err he
      simp only [Option.some.injEq] at he
      subst he
      rw [hVH]
      exact ⟨rfl, rfl, rfl⟩
    · intro h m
      rw [hVHU]; exact hdl

/-- Witness of C6: two MX records, every dial refused; only the first is dialed. -/
theorem ValidateHost_single_dial_witness :
    dials (ValidateHost refusingWorld (str "user@example.com")).2 =
        [(str "mx1.example.com:25", 5000000000)] ∧
      (ValidateHost refusingWorld (str "user@example.com")).1 =
        .returned (some (NewSmtpError (.library (str "dial tcp: connection refused"))).toError) :=
  have h := ValidateHost_single_dial refusingWorld (str "user@example.com") (str "user")
    (str "example.com") { Host := str "mx1.example.com", Pref := 10 }
    [{ Host := str "mx2.example.com", Pref := 20 }] (by decide) rfl
  ⟨h.1, (h.2.2.2.1 (.library (str "dial tcp: connection refused")) rfl).1⟩

/-- C7 (amended): for every error whose message has at least 3 bytes, `Code()` of
the `SmtpError` built from it returns, without panicking, the first 3 bytes of
`Error()`. -/
theorem Code_first_three_bytes (err : GoError) (h : 3 ≤ err.Error.length) :
    (NewSmtpError err).Code = some ((NewSmtpError err).Error.take 3) ∧
      ((NewSmtpError err).Error.take 3).length = 3 := by
  have hc : (0 : Int) ≤ 0 ∧ (0 : Int) ≤ 3 ∧ (3 : Int) ≤ (err.Error.length : Int) := by omega
  refine ⟨?_, ?_⟩
  · simp only [SmtpError.Code, NewSmtpError, SmtpError.Error, slice, if_pos hc]
    rfl
  · simp only [NewSmtpError, SmtpError.Error, List.length_take]
    omega

/-- Witness of C7 (amended) at the message `"550 no such user"`. -/
theorem Code_first_three_bytes_witness :
    (NewSmtpError (.library (str "550 no such user"))).Code = some (str "550") :=
  (Code_first_three_bytes (.library (str "550 no such user")) (by decide)).1

/-- C9 (as stated, refuted): in the run against a server that accepts everything,
the three commands are issued and the watchdog is armed at none of them. -/
theorem watchdog_not_armed_at_commands :
    (watchdogLog false (ValidateHostAndUser friendlyWorld (str "mail.local")
        (str "me@mail.local") (str "user@example.com")).2).all armedAtCommand = false ∧
      (watchdogLog false (ValidateHostAndUser friendlyWorld (str "mail.local")
        (str "me@mail.local") (str "user@example.com")).2).filter
          (fun p => p.1 != Event.close && p.1 != Event.lookupMX (str "example.com")) =
        [(.dial (str "mx.example.com:25") 5000000000 true, false),
          (.afterFunc 5000000000, false), (.newClient, true), (.stop, true),
          (.command (.Hello (str "mail.local")), false),
          (.command (.Mail (str "me@mail.local")), false),
          (.command (.Rcpt (str "user@example.com")), false)] := by
  decide

/-- C9 (amended): in every run of `ValidateHostAndUser` the watchdog is armed, with
`forceDisconnectAfter`, only inside `DialTimeout`, while `smtp.NewClient` runs; it
has been stopped at every point where `Hello`, `Mail` or `Rcpt` is issued. -/
theorem watchdog_covers_only_dial (w : World) (h m email : GoString) :
    (watchdogLog false (ValidateHostAndUser w h m email).2).all armedInDialOnly = true := by
  unfold ValidateHostAndUser
  cases hs : split email with
  | none => rfl
  | some p =>
    obtain ⟨account, host⟩ := p
    simp only
    rcases hl : w.LookupMX host with ⟨mx, err⟩
    cases err with
    | some e => cases mx <;> rfl
    | none =>
      cases mx with
      | nil => rfl
      | cons mx0 mxs =>
        simp only
        cases hd : (DialTimeout w (Sprintf_s_d mx0.Host 25) forceDisconnectAfter).1 with
        | none =>
          rw [DialTimeout_ok w _ _ hd]
          rcases handshake_cases w h m email with ⟨e, _, hh⟩ | ⟨e, _, _, hh⟩ |
            ⟨e, _, _, _, hh⟩ | ⟨_, _, _, hh⟩ <;> rw [hh] <;> rfl
        | some e =>
          rcases DialTimeout_err w _ _ e hd with h | h <;> rw [h] <;> rfl

/-! ## Claims on `SmtpError.Code`, the format validator and package initialisation -/

/-- C7 (as stated, refuted): on the 2-byte message `"no"` `Code()` panics; on the
message `"é55"`, which starts with a 2-byte character, it returns 3 bytes that
are 2 characters, not the first 3 characters. -/
theorem Code_not_three_characters :
    (NewSmtpError (.library (str "no"))).Code = none ∧
      (NewSmtpError (.library (str "é55"))).Code = some [0xC3, 0xA9, 0x35] ∧
      runes [0xC3, 0xA9, 0x35] = [0xE9, 0x35] ∧
      (runes (str "é55")).take 3 = [0xE9, 0x35, 0x35] := by
  decide

theorem latin_ToLower_small :
    ∀ r, r < 0x180 → unicode.ToLower latinCaseRanges r < 0x180 ∧
      unicode.ToLower latinCaseRanges (unicode.ToLower latinCaseRanges r) =
        unicode.ToLower latinCaseRanges r := by
  decide!

theorem latin_ToLower_big (r : Nat) (h : 0x180 ≤ r) : unicode.ToLower latinCaseRanges r = r := by
  have hf : latinCaseRanges.find? (fun cr => decide (cr.Lo ≤ r) && decide (r ≤ cr.Hi)) = none := by
    rw [List.find?_eq_none]
    intro cr hcr
    simp only [latinCaseRanges, List.mem_cons, List.mem_singleton, List.not_mem_nil,
      or_false] at hcr
    simp only [Bool.and_eq_true, decide_eq_true_eq, not_and, Nat.not_le]
    intro _
    rcases hcr with h' | h' | h' | h' | h' | h' | h' | h' | h' | h' | h' | h' | h' | h' | h' |
      h' | h' <;> (rw [h']; simp only; omega)
  unfold unicode.ToLower unicode.to
  rw [if_neg (by omega), hf]

theorem latin_ToLower_idempotent (r : Nat) :
    unicode.ToLower latinCaseRanges (unicode.ToLower latinCaseRanges r) =
      unicode.ToLower latinCaseRanges r := by
  by_cases h : r < 0x180
  · exact (latin_ToLower_small r h).2
  · rw [latin_ToLower_big r (by omega), latin_ToLower_big r (by omega)]

theorem latin_ToLower_valid (r : Nat) (hv : ValidRune r) :
    ValidRune (unicode.ToLower latinCaseRanges r) := by
  by_cases h : r < 0x180
  · have := (latin_ToLower_small r h).1
    unfold ValidRune
    omega
  · rw [latin_ToLower_big r (by omega)]
    exact hv

theorem emailRegexp_isSome : emailRegexp.isSome = true := by
  decide!

/-- C8 (as stated, refuted): `"ı@example.com"` (U+0131, dotless i) is rejected, its
upper-cased form `"I@EXAMPLE.COM"` is accepted. -/
theorem ValidateFormat_upper_differs :
    ValidateFormat latinCaseRanges (str "ı@example.com") = .returned (some ErrBadFormat) ∧
      strings.ToUpper latinCaseRanges (str "ı@example.com") = str "I@EXAMPLE.COM" ∧
      ValidateFormat latinCaseRanges (strings.ToUpper latinCaseRanges (str "ı@example.com")) =
        .returned none := by
  decide!

/-- C8 (amended): for every case table whose lower-casing is idempotent and keeps
runes valid, `ValidateFormat` gives the same result on `s` and on the lower-cased
`s`; for an ASCII-only `s` it also gives the same result on the upper-cased `s`;
and its only results are nil and `ErrBadFormat`. -/
theorem ValidateFormat_case_insensitive (tbl : List CaseRange)
    (hidem : ∀ r, unicode.ToLower tbl (unicode.ToLower tbl r) = unicode.ToLower tbl r)
    (hvalid : ∀ r, ValidRune r → ValidRune (unicode.ToLower tbl r)) (s : GoString) :
    ValidateFormat tbl (strings.ToLower tbl s) = ValidateFormat tbl s ∧
      (isASCII s = true → ValidateFormat tbl (strings.ToUpper tbl s) = ValidateFormat tbl s) ∧
      (ValidateFormat tbl s = .returned none ∨
        ValidateFormat tbl s = .returned (some ErrBadFormat)) := by
  refine ⟨?_, ?_, ?_⟩
  · unfold ValidateFormat
    rw [ToLower_idempotent tbl hidem hvalid]
  · intro ha
    unfold ValidateFormat
    rw [ToLower_ToUpper_of_isASCII tbl s ha]
  · unfold ValidateFormat
    have h := emailRegexp_isSome
    cases he : emailRegexp with
    | none => rw [he] at h; simp at h
    | some re =>
      simp only
      split_ifs
      · right; rfl
      · left; rfl

/-- Witness of C8 (amended) on `"User@Example.COM"` with the Latin case table. -/
theorem ValidateFormat_case_insensitive_witness :
    ValidateFormat latinCaseRanges (strings.ToLower latinCaseRanges (str "User@Example.COM")) =
        ValidateFormat latinCaseRanges (str "User@Example.COM") ∧
      ValidateFormat latinCaseRanges (strings.ToUpper latinCaseRanges (str "User@Example.COM")) =
        ValidateFormat latinCaseRanges (str "User@Example.COM") :=
  have h := ValidateFormat_case_insensitive latinCaseRanges latin_ToLower_idempotent
    latin_ToLower_valid (str "User@Example.COM")
  ⟨h.1, h.2.1 (by decide)⟩

/-- C10: package initialisation does not succeed: `emailRegexp` compiles, but the
pattern of `emailRegexpSimple` is refused (at the lookbehind `(?<!`), so its
`regexp.MustCompile` panics. -/
theorem package_init_panics :
    emailRegexp.isSome = true ∧ emailRegexpSimple = none ∧ packageInit = none := by
  decide!

end Checkmail
